import Mathlib

/-!
Verification of the force-directed constellation engine
(`ConstellationGraph` in `src/App.tsx`).

Modelling conventions:
* JavaScript numbers are modelled as `Option ℝ`: `some v` is a finite
  double with exact value `v`, `none` is a non-finite double (`NaN` or
  `±Infinity`).  Addition, subtraction and multiplication propagate
  `none`; division by zero (the only source of non-finite values in the
  engine, `0/0 = NaN` in JS) produces `none`; `Math.sqrt` of a negative
  number produces `none`.  Within one integration step starting from
  finite values this propagation coincides with IEEE-754 behaviour,
  because every operation downstream of the single unguarded division
  site (`dxPlanet/distPlanet`) maps non-finite operands to non-finite
  results.
* `Math.random()` is modelled as an arbitrary stream `r : ℕ → ℝ × ℝ` of
  per-node draws, each component assumed in `[0,1)` where a claim needs
  it.
* Lists of nodes model the mutable `nodes` array; in-place mutation of a
  node found by `Array.prototype.find` is modelled by updating the first
  matching list entry.
-/

/-- A graph-snapshot node as produced by `refreshGraph` (`{id, type}`). -/
structure GraphNode where
  id : String
  type : String
deriving Repr, DecidableEq

/-- A link `{source, target}` between node ids (`src/App.tsx`). -/
structure Link where
  source : String
  target : String
deriving Repr, DecidableEq

/-- A graph snapshot `{nodes, links}` handed to `ConstellationGraph`. -/
structure GraphSnapshot where
  nodes : List GraphNode
  links : List Link

/-- A physics node held in `physicsRef.current.nodes`: snapshot fields
plus kinematic state.  Kinematic fields are JS numbers (`Option ℝ`,
`none` = non-finite). -/
structure PhysNode where
  id : String
  type : String
  x : Option ℝ
  y : Option ℝ
  vx : Option ℝ
  vy : Option ℝ

/-- JS `+` on numbers: non-finite operands propagate. -/
def oadd : Option ℝ → Option ℝ → Option ℝ
  | some a, some b => some (a + b)
  | _, _ => none

/-- JS `-` on numbers: non-finite operands propagate. -/
def osub : Option ℝ → Option ℝ → Option ℝ
  | some a, some b => some (a - b)
  | _, _ => none

/-- JS `*` on numbers: non-finite operands propagate. -/
def omul : Option ℝ → Option ℝ → Option ℝ
  | some a, some b => some (a * b)
  | _, _ => none

/-- JS `/` on numbers: division by zero yields a non-finite value
(`NaN` or `±Infinity`), modelled as `none`. -/
noncomputable def odiv : Option ℝ → Option ℝ → Option ℝ
  | some a, some b => if b = 0 then none else some (a / b)
  | _, _ => none

/-- JS `Math.sqrt`: `NaN` on negative input, else the real square root. -/
noncomputable def osqrt : Option ℝ → Option ℝ
  | some a => if a < 0 then none else some (Real.sqrt a)
  | none => none

/-- JS `x || 1` applied to a number: `0` and `NaN` are falsy and give `1`
(used for the spring distance floor `Math.sqrt(..) || 1`). -/
noncomputable def jsOr1 : Option ℝ → Option ℝ
  | some a => if a = 0 then some 1 else some a
  | none => some 1

/-- JS `<` on numbers: comparisons with `NaN` are false. -/
def oltP : Option ℝ → Option ℝ → Prop
  | some a, some b => a < b
  | _, _ => False

noncomputable instance (a b : Option ℝ) : Decidable (oltP a b) :=
  match a, b with
  | some x, some y => inferInstanceAs (Decidable (x < y))
  | some _, none => inferInstanceAs (Decidable False)
  | none, some _ => inferInstanceAs (Decidable False)
  | none, none => inferInstanceAs (Decidable False)

@[simp] theorem oadd_some_some (a b : ℝ) : oadd (some a) (some b) = some (a + b) := rfl
@[simp] theorem osub_some_some (a b : ℝ) : osub (some a) (some b) = some (a - b) := rfl
@[simp] theorem omul_some_some (a b : ℝ) : omul (some a) (some b) = some (a * b) := rfl
@[simp] theorem oadd_none_right (a : Option ℝ) : oadd a none = none := by cases a <;> rfl
@[simp] theorem oadd_none_left (a : Option ℝ) : oadd none a = none := rfl
@[simp] theorem omul_none_left (a : Option ℝ) : omul none a = none := rfl
@[simp] theorem omul_none_right (a : Option ℝ) : omul a none = none := by cases a <;> rfl
@[simp] theorem osub_none_left (a : Option ℝ) : osub none a = none := rfl
@[simp] theorem osub_none_right (a : Option ℝ) : osub a none = none := by cases a <;> rfl
@[simp] theorem odiv_some_some (a b : ℝ) :
    odiv (some a) (some b) = if b = 0 then none else some (a / b) := rfl
@[simp] theorem odiv_none_right (a : Option ℝ) : odiv a none = none := by cases a <;> rfl
@[simp] theorem odiv_none_left (a : Option ℝ) : odiv none a = none := by cases a <;> rfl
@[simp] theorem osqrt_some (a : ℝ) :
    osqrt (some a) = if a < 0 then none else some (Real.sqrt a) := rfl
@[simp] theorem jsOr1_some (a : ℝ) :
    jsOr1 (some a) = if a = 0 then some 1 else some a := rfl
@[simp] theorem oltP_some_some (a b : ℝ) : oltP (some a) (some b) ↔ a < b := Iff.rfl

/-- The obstacle ("planet") geometry, from `getPlanetConfig` in
`src/App.tsx` lines 151–159. -/
structure PlanetConfig where
  x : ℝ
  y : ℝ
  radius : ℝ

/-- `getPlanetConfig(w, h)` (`src/App.tsx:151-159`): mobile means
`w < 768`; desktop uses `x = -w*0.1`, `y = h*1.1`,
`radius = Math.min(w,h)*0.8`; mobile uses `x = -w*0.2`, `y = h*0.8`,
`radius = h*0.6`. -/
noncomputable def getPlanetConfig (w h : ℝ) : PlanetConfig :=
  { x := if w < 768 then -w * 0.2 else -w * 0.1
    y := if w < 768 then h * 0.8 else h * 1.1
    radius := if w < 768 then h * 0.6 else min w h * 0.8 }

/-- Reconciliation of a single snapshot node against the held node list
(`src/App.tsx:125-134`): reuse the kinematics of a held node with the
same id, otherwise spawn at `(random*width, random*height*0.5)` with
zero velocity.  `r` is the pair of `Math.random()` draws available to
this node. -/
noncomputable def reconcileNode (held : List PhysNode) (w h : ℝ) (r : ℝ × ℝ)
    (n : GraphNode) : PhysNode :=
  match held.find? (fun old => old.id == n.id) with
  | some e => { id := n.id, type := n.type, x := e.x, y := e.y, vx := e.vx, vy := e.vy }
  | none =>
    { id := n.id, type := n.type
      x := some (r.1 * w)
      y := some (r.2 * h * 0.5)
      vx := some 0
      vy := some 0 }

/-- Full reconciliation (`src/App.tsx:121-137`): map every snapshot node
through `reconcileNode`; the held list is replaced by the result and the
held links by the snapshot links verbatim.  `r i` is the random draw for
the node at index `i`. -/
noncomputable def reconcile (held : List PhysNode) (snap : GraphSnapshot)
    (w h : ℝ) (r : ℕ → ℝ × ℝ) : List PhysNode :=
  snap.nodes.mapIdx (fun i n => reconcileNode held w h (r i) n)

/-- The set of links actually drawn by the renderer
(`src/App.tsx:255-272`): a link is skipped when either endpoint id fails
to resolve in the current node list. -/
def drawnEdges (ns : List PhysNode) (links : List Link) : List Link :=
  links.filter (fun l =>
    (ns.find? (fun n => n.id == l.source)).isSome &&
    (ns.find? (fun n => n.id == l.target)).isSome)

/-- Euclidean distance between two points, used to state geometric
claims about the engine. -/
noncomputable def distR (x1 y1 x2 y2 : ℝ) : ℝ :=
  Real.sqrt ((x1 - x2) ^ 2 + (y1 - y2) ^ 2)

/-- The repulsion velocity delta `(fx, fy)` computed for a pair of
nodes (`src/App.tsx:176-185`): squared distance with only an
exactly-zero value replaced by `1`, force `2000/distSq`, directed along
the separation vector. -/
noncomputable def repelDelta (a b : PhysNode) : Option ℝ × Option ℝ :=
  let dx := osub a.x b.x
  let dy := osub a.y b.y
  let distSq0 := oadd (omul dx dx) (omul dy dy)
  let distSq := if distSq0 = some 0 then some 1 else distSq0
  let dist := osqrt distSq
  let force := odiv (some 2000) distSq
  (omul (odiv dx dist) force, omul (odiv dy dist) force)

/-- One iteration of the inner repulsion loop body
(`src/App.tsx:176-188`) for the index pair `(i, j)`: compute the
repulsion delta, add it to node `i`'s velocity and subtract it from
node `j`'s velocity (re-reading node `j` after the first write, as the
JS mutation does). -/
noncomputable def repelPair (ns : List PhysNode) (i j : ℕ) : List PhysNode :=
  match ns[i]?, ns[j]? with
  | some a, some b =>
    let f := repelDelta a b
    let ns1 := ns.set i { a with vx := oadd a.vx f.1, vy := oadd a.vy f.2 }
    match ns1[j]? with
    | some b2 => ns1.set j { b2 with vx := osub b2.vx f.1, vy := osub b2.vy f.2 }
    | none => ns1
  | _, _ => ns

/-- The full pairwise repulsion phase (`src/App.tsx:174-190`): the
double loop `for i in [0,n)` / `for j in [i+1,n)` over the node list. -/
noncomputable def repulsionPhase (ns : List PhysNode) : List PhysNode :=
  (List.range ns.length).foldl
    (fun s i => ((List.range ns.length).drop (i + 1)).foldl
      (fun s2 j => repelPair s2 i j) s) ns

/-- Update the first node matching `p` in place (models JS
`Array.prototype.find` returning an aliased object that is then
mutated). -/
def updFirst (p : PhysNode → Bool) (f : PhysNode → PhysNode) :
    List PhysNode → List PhysNode
  | [] => []
  | n :: ns => if p n then f n :: ns else n :: updFirst p f ns

/-- The spring velocity delta `(fx, fy)` for a resolved link
(`src/App.tsx:198-204`): Euclidean distance with JS `|| 1` floor, force
`(dist - 120) * 0.02`, directed from source towards target. -/
noncomputable def springDelta (s t : PhysNode) : Option ℝ × Option ℝ :=
  let dx := osub t.x s.x
  let dy := osub t.y s.y
  let dist := jsOr1 (osqrt (oadd (omul dx dx) (omul dy dy)))
  let force := omul (osub dist (some 120)) (some 0.02)
  (omul (odiv dx dist) force, omul (odiv dy dist) force)

/-- Spring attraction for one link (`src/App.tsx:193-208`): if either
endpoint id fails to resolve, do nothing; otherwise apply the spring
delta to the source's velocity and its negation to the target's
velocity (sequentially, so an aliased source/target is handled exactly
as in JS). -/
noncomputable def springLink (ns : List PhysNode) (l : Link) : List PhysNode :=
  match ns.find? (fun n => n.id == l.source), ns.find? (fun n => n.id == l.target) with
  | some s, some t =>
    let f := springDelta s t
    let ns1 := updFirst (fun n => n.id == l.source)
      (fun n => { n with vx := oadd n.vx f.1, vy := oadd n.vy f.2 }) ns
    updFirst (fun n => n.id == l.target)
      (fun n => { n with vx := osub n.vx f.1, vy := osub n.vy f.2 }) ns1
  | _, _ => ns

/-- Gravity bias, planet pushback, damping and position update for one
node (`src/App.tsx:211-233`).  The planet pushback divides by
`distPlanet` with no floor; at `distPlanet = 0` this is JS `0/0 = NaN`
(modelled as `none`). -/
noncomputable def gravityPlanetStep (w h : ℝ) (planet : PlanetConfig)
    (n : PhysNode) : PhysNode :=
  let vx1 := oadd n.vx (omul (osub (some (w * 0.7)) n.x) (some 0.0003))
  let vy1 := oadd n.vy (omul (osub (some (h * 0.3)) n.y) (some 0.0003))
  let dxP := osub n.x (some planet.x)
  let dyP := osub n.y (some planet.y)
  let distP := osqrt (oadd (omul dxP dxP) (omul dyP dyP))
  let vx2 := if oltP distP (some (planet.radius + 20)) then
      oadd vx1 (omul (odiv dxP distP)
        (omul (osub (some (planet.radius + 20)) distP) (some 0.1)))
    else vx1
  let vy2 := if oltP distP (some (planet.radius + 20)) then
      oadd vy1 (omul (odiv dyP distP)
        (omul (osub (some (planet.radius + 20)) distP) (some 0.1)))
    else vy1
  let vx3 := omul vx2 (some 0.85)
  let vy3 := omul vy2 (some 0.85)
  { n with vx := vx3, vy := vy3, x := oadd n.x vx3, y := oadd n.y vy3 }

/-- One full integration step of `renderLoop` (`src/App.tsx:161-233`):
repulsion over all pairs, spring attraction over all links, then per
node gravity + planet pushback + damping + position update. -/
noncomputable def integrationStep (w h : ℝ) (ns : List PhysNode)
    (links : List Link) : List PhysNode :=
  (links.foldl springLink (repulsionPhase ns)).map
    (gravityPlanetStep w h (getPlanetConfig w h))

theorem sumsq_nonneg (u v : ℝ) : 0 ≤ u * u + v * v := by
  nlinarith [mul_self_nonneg u, mul_self_nonneg v]

/-- When the pair is not coincident, the repulsion delta is the finite
value `(dx/dist * 2000/distSq, dy/dist * 2000/distSq)`. -/
theorem repelDelta_eq_of_ne_zero (a b : PhysNode) (pax pay pbx pby : ℝ)
    (hax : a.x = some pax) (hay : a.y = some pay)
    (hbx : b.x = some pbx) (hby : b.y = some pby)
    (hs : (pax - pbx) * (pax - pbx) + (pay - pby) * (pay - pby) ≠ 0) :
    repelDelta a b =
      (some ((pax - pbx) / Real.sqrt ((pax - pbx) * (pax - pbx) + (pay - pby) * (pay - pby)) *
         (2000 / ((pax - pbx) * (pax - pbx) + (pay - pby) * (pay - pby)))),
       some ((pay - pby) / Real.sqrt ((pax - pbx) * (pax - pbx) + (pay - pby) * (pay - pby)) *
         (2000 / ((pax - pbx) * (pax - pbx) + (pay - pby) * (pay - pby))))) := by
  have hpos : 0 < (pax - pbx) * (pax - pbx) + (pay - pby) * (pay - pby) :=
    lt_of_le_of_ne (sumsq_nonneg _ _) (Ne.symm hs)
  have hsqrt : Real.sqrt ((pax - pbx) * (pax - pbx) + (pay - pby) * (pay - pby)) ≠ 0 :=
    ne_of_gt (Real.sqrt_pos.mpr hpos)
  unfold repelDelta
  rw [hax, hay, hbx, hby]
  simp only [osub_some_some, omul_some_some, oadd_some_some]
  rw [if_neg (by simpa using hs)]
  simp only [osqrt_some, if_neg (not_lt.mpr (le_of_lt hpos)), odiv_some_some,
    if_neg hsqrt, if_neg hs, omul_some_some]

/-- Coincident pair: `distSq` is replaced by `1` and the direction
vector is zero, so the applied repulsion delta is `(0, 0)`. -/
theorem repelDelta_eq_of_zero (a b : PhysNode) (pax pay pbx pby : ℝ)
    (hax : a.x = some pax) (hay : a.y = some pay)
    (hbx : b.x = some pbx) (hby : b.y = some pby)
    (hs : (pax - pbx) * (pax - pbx) + (pay - pby) * (pay - pby) = 0) :
    repelDelta a b = (some 0, some 0) := by
  have hx0 : pax - pbx = 0 := by nlinarith [mul_self_nonneg (pax - pbx), mul_self_nonneg (pay - pby)]
  have hy0 : pay - pby = 0 := by nlinarith [mul_self_nonneg (pax - pbx), mul_self_nonneg (pay - pby)]
  unfold repelDelta
  rw [hax, hay, hbx, hby]
  simp only [osub_some_some, omul_some_some, oadd_some_some, hx0, hy0]
  rw [if_pos (by norm_num)]
  simp only [osqrt_some, if_neg (by norm_num : ¬ (1:ℝ) < 0), Real.sqrt_one, odiv_some_some,
    if_neg (one_ne_zero : (1:ℝ) ≠ 0), omul_some_some]
  norm_num

/-- Finite positions always give a finite repulsion delta. -/
theorem repelDelta_finite (a b : PhysNode) (pax pay pbx pby : ℝ)
    (hax : a.x = some pax) (hay : a.y = some pay)
    (hbx : b.x = some pbx) (hby : b.y = some pby) :
    ∃ f g : ℝ, repelDelta a b = (some f, some g) := by
  by_cases hs : (pax - pbx) * (pax - pbx) + (pay - pby) * (pay - pby) = 0
  · exact ⟨0, 0, repelDelta_eq_of_zero a b pax pay pbx pby hax hay hbx hby hs⟩
  · exact ⟨_, _, repelDelta_eq_of_ne_zero a b pax pay pbx pby hax hay hbx hby hs⟩

/-- Shape of one repulsion-pair application when both indices resolve:
the delta is added to node `i` and subtracted from node `j`. -/
theorem repelPair_eq (ns : List PhysNode) (i j : ℕ) (a b : PhysNode)
    (hij : i ≠ j) (ha : ns[i]? = some a) (hb : ns[j]? = some b) :
    repelPair ns i j =
      (ns.set i { a with vx := oadd a.vx (repelDelta a b).1,
                         vy := oadd a.vy (repelDelta a b).2 }).set j
        { b with vx := osub b.vx (repelDelta a b).1,
                 vy := osub b.vy (repelDelta a b).2 } := by
  unfold repelPair
  rw [ha, hb]
  simp only
  rw [List.getElem?_set_ne hij, hb]

/-- C6: for every viewport `w, h`, the obstacle model returns
`x = -0.1w, y = 1.1h, radius = 0.8*min(w,h)` when `w ≥ 768`, and
`x = -0.2w, y = 0.8h, radius = 0.6h` when `w < 768`. -/
theorem planet_config_formula (w h : ℝ) :
    (768 ≤ w →
      (getPlanetConfig w h).x = -(0.1 * w) ∧
      (getPlanetConfig w h).y = 1.1 * h ∧
      (getPlanetConfig w h).radius = 0.8 * min w h) ∧
    (w < 768 →
      (getPlanetConfig w h).x = -(0.2 * w) ∧
      (getPlanetConfig w h).y = 0.8 * h ∧
      (getPlanetConfig w h).radius = 0.6 * h) := by
  constructor
  · intro hw
    simp only [getPlanetConfig, if_neg (not_lt.mpr hw)]
    refine ⟨by ring, by ring, by ring⟩
  · intro hw
    simp only [getPlanetConfig, if_pos hw]
    refine ⟨by ring, by ring, by ring⟩

theorem planet_config_formula_witness :
    (getPlanetConfig 1000 500).x = -(0.1 * 1000) ∧
    (getPlanetConfig 1000 500).y = 1.1 * 500 ∧
    (getPlanetConfig 1000 500).radius = 0.8 * min 1000 500 ∧
    (getPlanetConfig 600 500).x = -(0.2 * 600) ∧
    (getPlanetConfig 600 500).y = 0.8 * 500 ∧
    (getPlanetConfig 600 500).radius = 0.6 * 500 := by
  obtain ⟨h1, h2, h3⟩ := (planet_config_formula 1000 500).1 (by norm_num)
  obtain ⟨h4, h5, h6⟩ := (planet_config_formula 600 500).2 (by norm_num)
  exact ⟨h1, h2, h3, h4, h5, h6⟩

/-- C1: a node whose id is already present in the held node list keeps
its exact `x, y, vx, vy` values immediately after reconciliation. -/
theorem reconcile_preserves_kinematics (held : List PhysNode) (snap : GraphSnapshot)
    (w h : ℝ) (r : ℕ → ℝ × ℝ) (i : ℕ) (n : GraphNode) (e : PhysNode)
    (hn : snap.nodes[i]? = some n)
    (he : held.find? (fun old => old.id == n.id) = some e) :
    (reconcile held snap w h r)[i]? =
      some { id := n.id, type := n.type, x := e.x, y := e.y, vx := e.vx, vy := e.vy } := by
  unfold reconcile
  rw [List.getElem?_mapIdx, hn]
  simp only [Option.map_some']
  unfold reconcileNode
  rw [he]

theorem reconcile_preserves_kinematics_witness :
    (reconcile [⟨"a", "agent", some 5, some 6, some 7, some 8⟩]
        ⟨[⟨"a", "agent"⟩], []⟩ 100 100 (fun _ => (0, 0)))[0]? =
      some ⟨"a", "agent", some 5, some 6, some 7, some 8⟩ :=
  reconcile_preserves_kinematics
    [⟨"a", "agent", some 5, some 6, some 7, some 8⟩] ⟨[⟨"a", "agent"⟩], []⟩
    100 100 (fun _ => (0, 0)) 0 ⟨"a", "agent"⟩
    ⟨"a", "agent", some 5, some 6, some 7, some 8⟩ rfl rfl

/-- C4: a node introduced by reconciliation (id not previously present)
is assigned `x = rand*w ∈ [0, w)`, `y = rand*h*0.5 ∈ [0, h/2)` and zero
velocity, for a positive viewport and `Math.random` draws in `[0, 1)`. -/
theorem new_node_spawn_region (held : List PhysNode) (snap : GraphSnapshot)
    (w h : ℝ) (r : ℕ → ℝ × ℝ) (i : ℕ) (n : GraphNode)
    (hw : 0 < w) (hh : 0 < h)
    (hr1 : 0 ≤ (r i).1) (hr1' : (r i).1 < 1)
    (hr2 : 0 ≤ (r i).2) (hr2' : (r i).2 < 1)
    (hn : snap.nodes[i]? = some n)
    (he : held.find? (fun old => old.id == n.id) = none) :
    (reconcile held snap w h r)[i]? =
      some { id := n.id, type := n.type, x := some ((r i).1 * w),
             y := some ((r i).2 * h * 0.5), vx := some 0, vy := some 0 } ∧
    0 ≤ (r i).1 * w ∧ (r i).1 * w < w ∧
    0 ≤ (r i).2 * h * 0.5 ∧ (r i).2 * h * 0.5 < h / 2 := by
  refine ⟨?_, mul_nonneg hr1 (le_of_lt hw), ?_, ?_, ?_⟩
  · unfold reconcile
    rw [List.getElem?_mapIdx, hn]
    simp only [Option.map_some']
    unfold reconcileNode
    rw [he]
  · nlinarith
  · nlinarith
  · nlinarith

theorem new_node_spawn_region_witness :
    (reconcile [] ⟨[⟨"f1", "form"⟩], []⟩ 1000 800 (fun _ => (0.5, 0.25)))[0]? =
      some { id := "f1", type := "form", x := some (0.5 * 1000),
             y := some (0.25 * 800 * 0.5), vx := some 0, vy := some 0 } ∧
    0 ≤ (0.5 : ℝ) * 1000 ∧ (0.5 : ℝ) * 1000 < 1000 ∧
    0 ≤ (0.25 : ℝ) * 800 * 0.5 ∧ (0.25 : ℝ) * 800 * 0.5 < 800 / 2 :=
  new_node_spawn_region [] ⟨[⟨"f1", "form"⟩], []⟩ 1000 800 (fun _ => (0.5, 0.25)) 0
    ⟨"f1", "form"⟩ (by norm_num) (by norm_num) (by norm_num) (by norm_num)
    (by norm_num) (by norm_num) rfl rfl

/-- C2: in the repulsion phase, the velocity delta added to node `i` is
exactly the negation of the delta added to node `j` of the same pair. -/
theorem repulsion_deltas_equal_opposite (ns : List PhysNode) (i j : ℕ) (a b : PhysNode)
    (hij : i ≠ j) (ha : ns[i]? = some a) (hb : ns[j]? = some b)
    (pax pay vax vay pbx pby vbx vby : ℝ)
    (hax : a.x = some pax) (hay : a.y = some pay)
    (havx : a.vx = some vax) (havy : a.vy = some vay)
    (hbx : b.x = some pbx) (hby : b.y = some pby)
    (hbvx : b.vx = some vbx) (hbvy : b.vy = some vby) :
    ∃ f g : ℝ,
      (repelPair ns i j)[i]? =
        some { a with vx := some (vax + f), vy := some (vay + g) } ∧
      (repelPair ns i j)[j]? =
        some { b with vx := some (vbx - f), vy := some (vby - g) } := by
  have hi : i < ns.length := by
    rcases List.getElem?_eq_some_iff.mp ha with ⟨h, _⟩; exact h
  have hj : j < ns.length := by
    rcases List.getElem?_eq_some_iff.mp hb with ⟨h, _⟩; exact h
  obtain ⟨f, g, hfg⟩ := repelDelta_finite a b pax pay pbx pby hax hay hbx hby
  refine ⟨f, g, ?_, ?_⟩
  · rw [repelPair_eq ns i j a b hij ha hb]
    rw [List.getElem?_set_ne (Ne.symm hij), List.getElem?_set_self hi]
    rw [hfg, havx, havy]
    simp
  · rw [repelPair_eq ns i j a b hij ha hb]
    rw [List.getElem?_set_self (by simpa using hj)]
    rw [hfg, hbvx, hbvy]
    simp

theorem repulsion_deltas_equal_opposite_witness :
    ∃ f g : ℝ,
      (repelPair [⟨"a", "agent", some 0, some 0, some 1, some 2⟩,
                  ⟨"b", "form", some 3, some 4, some 5, some 6⟩] 0 1)[0]? =
        some { id := "a", type := "agent", x := some 0, y := some 0,
               vx := some (1 + f), vy := some (2 + g) } ∧
      (repelPair [⟨"a", "agent", some 0, some 0, some 1, some 2⟩,
                  ⟨"b", "form", some 3, some 4, some 5, some 6⟩] 0 1)[1]? =
        some { id := "b", type := "form", x := some 3, y := some 4,
               vx := some (5 - f), vy := some (6 - g) } :=
  repulsion_deltas_equal_opposite
    [⟨"a", "agent", some 0, some 0, some 1, some 2⟩,
     ⟨"b", "form", some 3, some 4, some 5, some 6⟩] 0 1
    ⟨"a", "agent", some 0, some 0, some 1, some 2⟩
    ⟨"b", "form", some 3, some 4, some 5, some 6⟩
    (by norm_num) rfl rfl 0 0 1 2 3 4 5 6 rfl rfl rfl rfl rfl rfl rfl rfl

/-- C5: a link with an unresolved endpoint id causes no velocity change
for any node in the spring phase and is excluded from the drawn edges. -/
theorem dangling_link_ignored (ns : List PhysNode) (links : List Link) (l : Link)
    (hd : ns.find? (fun n => n.id == l.source) = none ∨
          ns.find? (fun n => n.id == l.target) = none) :
    springLink ns l = ns ∧ l ∉ drawnEdges ns links := by
  constructor
  · unfold springLink
    split
    · rename_i s t hs ht
      rcases hd with h | h
      · rw [h] at hs; exact Option.noConfusion hs
      · rw [h] at ht; exact Option.noConfusion ht
    · rfl
  · intro hmem
    rw [drawnEdges, List.mem_filter] at hmem
    rcases hd with h | h
    · rw [h] at hmem; simp at hmem
    · rw [h] at hmem; simp at hmem

theorem dangling_link_ignored_witness :
    springLink [⟨"a", "agent", some 1, some 2, some 0, some 0⟩] ⟨"a", "gone"⟩ =
      [⟨"a", "agent", some 1, some 2, some 0, some 0⟩] ∧
    (⟨"a", "gone"⟩ : Link) ∉
      drawnEdges [⟨"a", "agent", some 1, some 2, some 0, some 0⟩] [⟨"a", "gone"⟩] :=
  dangling_link_ignored [⟨"a", "agent", some 1, some 2, some 0, some 0⟩]
    [⟨"a", "gone"⟩] ⟨"a", "gone"⟩ (Or.inr rfl)

/-- Modelled from the spec's words for C7 (refinement comparison only):
the claimed repulsion force magnitude `R / max(distSq, 1)`, i.e. a
squared distance clamped to a minimum of 1. -/
noncomputable def specClampedForce (distSq : ℝ) : ℝ := 2000 / max distSq 1

/-- C7 counterexample: two nodes at separation `1/2` (so `distSq = 1/4`)
receive a repulsion delta of magnitude `2000 / (1/4) = 8000`, while the
claimed clamped magnitude `2000 / max(1/4, 1)` is `2000`.  The code only
replaces an exactly-zero `distSq` by `1`; it does not clamp to a
minimum of 1. -/
theorem repulsion_clamp_counterexample :
    repelDelta ⟨"a", "agent", some 0, some 0, some 0, some 0⟩
        ⟨"b", "agent", some (1/2), some 0, some 0, some 0⟩ = (some (-8000), some 0) ∧
    specClampedForce (1/4) = 2000 ∧
    ¬ ((8000 : ℝ) = specClampedForce (1/4)) := by
  have hmax : max ((1:ℝ)/4) 1 = 1 := by norm_num
  refine ⟨?_, ?_, ?_⟩
  · have h := repelDelta_eq_of_ne_zero
      ⟨"a", "agent", some 0, some 0, some 0, some 0⟩
      ⟨"b", "agent", some (1/2), some 0, some 0, some 0⟩
      0 0 (1/2) 0 rfl rfl rfl rfl (by norm_num)
    rw [h]
    have hsq : Real.sqrt (((0:ℝ) - 1/2) * ((0:ℝ) - 1/2) + ((0:ℝ) - 0) * ((0:ℝ) - 0)) = 1/2 := by
      rw [show ((0:ℝ) - 1/2) * ((0:ℝ) - 1/2) + ((0:ℝ) - 0) * ((0:ℝ) - 0) = (1/2)^2 by norm_num]
      exact Real.sqrt_sq (by norm_num)
    rw [hsq]
    norm_num
  · rw [specClampedForce, hmax]; norm_num
  · rw [specClampedForce, hmax]; norm_num

/-- C7 amended: the squared distance is not clamped to a minimum of 1;
only an exactly-zero `distSq` is replaced by 1.  For `distSq ≠ 0` the
applied delta has magnitude exactly `2000 / distSq` (which exceeds 2000
when `0 < distSq < 1`), and for coincident nodes the applied delta is
`(0, 0)`. -/
theorem repulsion_force_unclamped (a b : PhysNode) (pax pay pbx pby : ℝ)
    (hax : a.x = some pax) (hay : a.y = some pay)
    (hbx : b.x = some pbx) (hby : b.y = some pby) :
    ((pax - pbx) * (pax - pbx) + (pay - pby) * (pay - pby) ≠ 0 →
      ∃ f g : ℝ, repelDelta a b = (some f, some g) ∧
        f ^ 2 + g ^ 2 =
          (2000 / ((pax - pbx) * (pax - pbx) + (pay - pby) * (pay - pby))) ^ 2) ∧
    ((pax - pbx) * (pax - pbx) + (pay - pby) * (pay - pby) = 0 →
      repelDelta a b = (some 0, some 0)) := by
  constructor
  · intro hs
    have hpos : 0 < (pax - pbx) * (pax - pbx) + (pay - pby) * (pay - pby) :=
      lt_of_le_of_ne (sumsq_nonneg _ _) (Ne.symm hs)
    have hsq : Real.sqrt ((pax - pbx) * (pax - pbx) + (pay - pby) * (pay - pby)) ^ 2 =
        (pax - pbx) * (pax - pbx) + (pay - pby) * (pay - pby) :=
      Real.sq_sqrt (le_of_lt hpos)
    refine ⟨_, _, repelDelta_eq_of_ne_zero a b pax pay pbx pby hax hay hbx hby hs, ?_⟩
    have hexpand :
        ((pax - pbx) / Real.sqrt ((pax - pbx) * (pax - pbx) + (pay - pby) * (pay - pby)) *
           (2000 / ((pax - pbx) * (pax - pbx) + (pay - pby) * (pay - pby)))) ^ 2 +
        ((pay - pby) / Real.sqrt ((pax - pbx) * (pax - pbx) + (pay - pby) * (pay - pby)) *
           (2000 / ((pax - pbx) * (pax - pbx) + (pay - pby) * (pay - pby)))) ^ 2 =
        ((pax - pbx) * (pax - pbx) + (pay - pby) * (pay - pby)) /
          Real.sqrt ((pax - pbx) * (pax - pbx) + (pay - pby) * (pay - pby)) ^ 2 *
          (2000 / ((pax - pbx) * (pax - pbx) + (pay - pby) * (pay - pby))) ^ 2 := by
      ring
    rw [hexpand, hsq, div_self hs, one_mul]
  · exact repelDelta_eq_of_zero a b pax pay pbx pby hax hay hbx hby

theorem repulsion_force_unclamped_witness :
    (((0:ℝ) - 1/2) * ((0:ℝ) - 1/2) + ((0:ℝ) - 0) * ((0:ℝ) - 0) ≠ 0 →
      ∃ f g : ℝ, repelDelta ⟨"a", "agent", some 0, some 0, some 0, some 0⟩
          ⟨"b", "agent", some (1/2), some 0, some 0, some 0⟩ = (some f, some g) ∧
        f ^ 2 + g ^ 2 =
          (2000 / (((0:ℝ) - 1/2) * ((0:ℝ) - 1/2) + ((0:ℝ) - 0) * ((0:ℝ) - 0))) ^ 2) ∧
    (((0:ℝ) - 1/2) * ((0:ℝ) - 1/2) + ((0:ℝ) - 0) * ((0:ℝ) - 0) = 0 →
      repelDelta ⟨"a", "agent", some 0, some 0, some 0, some 0⟩
        ⟨"b", "agent", some (1/2), some 0, some 0, some 0⟩ = (some 0, some 0)) :=
  repulsion_force_unclamped ⟨"a", "agent", some 0, some 0, some 0, some 0⟩
    ⟨"b", "agent", some (1/2), some 0, some 0, some 0⟩ 0 0 (1/2) 0 rfl rfl rfl rfl

/-- A node all of whose kinematic fields are finite doubles. -/
def FiniteN (n : PhysNode) : Prop :=
  n.x.isSome ∧ n.y.isSome ∧ n.vx.isSome ∧ n.vy.isSome

/-- Every node in the list has finite kinematic fields. -/
def AllFinite (ns : List PhysNode) : Prop := ∀ n ∈ ns, FiniteN n

/-- Projection to the position fields (the velocity phases of the
integration step never write `x` or `y`). -/
def geomProj (n : PhysNode) : Option ℝ × Option ℝ := (n.x, n.y)

theorem foldl_preserve {α β : Type} (P : α → Prop) (f : α → β → α)
    (h : ∀ s b, P s → P (f s b)) (l : List β) (s : α) (hs : P s) :
    P (l.foldl f s) := by
  induction l generalizing s with
  | nil => exact hs
  | cons b l ih => exact ih (f s b) (h s b hs)

theorem set_preserves_proj {β : Type} (ns : List PhysNode) (i : ℕ) (a q : PhysNode)
    (f : PhysNode → β) (hq : ns[i]? = some q) (hfa : f a = f q) :
    ∀ m : ℕ, (ns.set i a)[m]?.map f = ns[m]?.map f := by
  intro m
  by_cases him : i = m
  · subst him
    rcases List.getElem?_eq_some_iff.mp hq with ⟨hlen, _⟩
    rw [List.getElem?_set_self hlen, hq, Option.map_some', Option.map_some', hfa]
  · rw [List.getElem?_set_ne him]

/-- The repulsion pair update never changes any node's position. -/
theorem repelPair_geom (ns : List PhysNode) (i j : ℕ) :
    ∀ m : ℕ, (repelPair ns i j)[m]?.map geomProj = ns[m]?.map geomProj := by
  unfold repelPair
  cases ha : ns[i]? with
  | none => intro m; rfl
  | some a =>
    cases hb : ns[j]? with
    | none => intro m; rfl
    | some b =>
      simp only
      cases hb2 : (ns.set i { a with vx := oadd a.vx (repelDelta a b).1,
                                     vy := oadd a.vy (repelDelta a b).2 })[j]? with
      | none =>
        exact set_preserves_proj ns i
          { a with vx := oadd a.vx (repelDelta a b).1,
                   vy := oadd a.vy (repelDelta a b).2 } a geomProj ha rfl
      | some b2 =>
        intro m
        rw [set_preserves_proj
            (ns.set i { a with vx := oadd a.vx (repelDelta a b).1,
                               vy := oadd a.vy (repelDelta a b).2 }) j
            { b2 with vx := osub b2.vx (repelDelta a b).1,
                      vy := osub b2.vy (repelDelta a b).2 } b2 geomProj hb2 rfl m,
          set_preserves_proj ns i
            { a with vx := oadd a.vx (repelDelta a b).1,
                     vy := oadd a.vy (repelDelta a b).2 } a geomProj ha rfl m]

/-- The repulsion pair update keeps every node finite. -/
theorem repelPair_allFinite (ns : List PhysNode) (i j : ℕ)
    (h : AllFinite ns) : AllFinite (repelPair ns i j) := by
  unfold repelPair
  cases ha : ns[i]? with
  | none => exact h
  | some a =>
    cases hb : ns[j]? with
    | none => exact h
    | some b =>
      simp only
      have hamem : a ∈ ns := by
        rcases List.getElem?_eq_some_iff.mp ha with ⟨hlen, hget⟩
        exact hget ▸ List.getElem_mem hlen
      have hbmem : b ∈ ns := by
        rcases List.getElem?_eq_some_iff.mp hb with ⟨hlen, hget⟩
        exact hget ▸ List.getElem_mem hlen
      obtain ⟨hax, hay, havx, havy⟩ := h a hamem
      obtain ⟨pax, hax'⟩ := Option.isSome_iff_exists.mp hax
      obtain ⟨pay, hay'⟩ := Option.isSome_iff_exists.mp hay
      obtain ⟨hbx, hby, hbvx, hbvy⟩ := h b hbmem
      obtain ⟨pbx, hbx'⟩ := Option.isSome_iff_exists.mp hbx
      obtain ⟨pby, hby'⟩ := Option.isSome_iff_exists.mp hby
      obtain ⟨vax, havx'⟩ := Option.isSome_iff_exists.mp havx
      obtain ⟨vay, havy'⟩ := Option.isSome_iff_exists.mp havy
      obtain ⟨f, g, hfg⟩ := repelDelta_finite a b pax pay pbx pby hax' hay' hbx' hby'
      have hAfin : FiniteN { a with vx := oadd a.vx (repelDelta a b).1,
                                    vy := oadd a.vy (repelDelta a b).2 } := by
        refine ⟨hax, hay, ?_, ?_⟩ <;>
          simp [hfg, havx', havy']
      have hns1 : AllFinite (ns.set i { a with vx := oadd a.vx (repelDelta a b).1,
                                               vy := oadd a.vy (repelDelta a b).2 }) := by
        intro n hn
        rcases List.mem_or_eq_of_mem_set hn with hmem | rfl
        · exact h n hmem
        · exact hAfin
      cases hb2 : (ns.set i { a with vx := oadd a.vx (repelDelta a b).1,
                                     vy := oadd a.vy (repelDelta a b).2 })[j]? with
      | none => exact hns1
      | some b2 =>
        have hb2mem : b2 ∈ ns.set i { a with vx := oadd a.vx (repelDelta a b).1,
                                             vy := oadd a.vy (repelDelta a b).2 } := by
          rcases List.getElem?_eq_some_iff.mp hb2 with ⟨hlen, hget⟩
          exact hget ▸ List.getElem_mem hlen
        obtain ⟨hb2x, hb2y, hb2vx, hb2vy⟩ := hns1 b2 hb2mem
        obtain ⟨v1, hv1⟩ := Option.isSome_iff_exists.mp hb2vx
        obtain ⟨v2, hv2⟩ := Option.isSome_iff_exists.mp hb2vy
        intro n hn
        rcases List.mem_or_eq_of_mem_set hn with hmem | rfl
        · exact hns1 n hmem
        · refine ⟨hb2x, hb2y, ?_, ?_⟩ <;> simp [hfg, hv1, hv2]

/-- Finite endpoint positions always give a finite spring delta (the
`|| 1` floor keeps the divisor nonzero and the `dist` is a square root
of a nonnegative sum). -/
theorem springDelta_finite (s t : PhysNode) (psx psy ptx pty : ℝ)
    (hsx : s.x = some psx) (hsy : s.y = some psy)
    (htx : t.x = some ptx) (hty : t.y = some pty) :
    ∃ f g : ℝ, springDelta s t = (some f, some g) := by
  unfold springDelta
  rw [hsx, hsy, htx, hty]
  simp only [osub_some_some, omul_some_some, oadd_some_some, osqrt_some]
  rw [if_neg (not_lt.mpr (sumsq_nonneg _ _))]
  by_cases hz : Real.sqrt ((ptx - psx) * (ptx - psx) + (pty - psy) * (pty - psy)) = 0
  · rw [jsOr1_some, if_pos hz]
    simp only [osub_some_some, omul_some_some, odiv_some_some,
      if_neg (one_ne_zero : (1:ℝ) ≠ 0)]
    exact ⟨_, _, rfl⟩
  · rw [jsOr1_some, if_neg hz]
    simp only [osub_some_some, omul_some_some, odiv_some_some, if_neg hz]
    exact ⟨_, _, rfl⟩

theorem updFirst_geom (p : PhysNode → Bool) (f : PhysNode → PhysNode)
    (hf : ∀ n, geomProj (f n) = geomProj n) (ns : List PhysNode) :
    ∀ m : ℕ, (updFirst p f ns)[m]?.map geomProj = ns[m]?.map geomProj := by
  induction ns with
  | nil => intro m; rfl
  | cons a l ih =>
    intro m
    unfold updFirst
    by_cases hp : p a
    · rw [if_pos hp]
      cases m with
      | zero => simp [hf]
      | succ k => simp
    · rw [if_neg hp]
      cases m with
      | zero => simp
      | succ k => simpa using ih k

theorem updFirst_allFinite (p : PhysNode → Bool) (f : PhysNode → PhysNode)
    (hf : ∀ n, FiniteN n → FiniteN (f n)) (ns : List PhysNode)
    (h : AllFinite ns) : AllFinite (updFirst p f ns) := by
  induction ns with
  | nil => intro n hn; cases hn
  | cons a l ih =>
    unfold updFirst
    by_cases hp : p a
    · rw [if_pos hp]
      intro n hn
      rcases List.mem_cons.mp hn with rfl | hmem
      · exact hf a (h a (List.mem_cons_self a l))
      · exact h n (List.mem_cons_of_mem a hmem)
    · rw [if_neg hp]
      intro n hn
      rcases List.mem_cons.mp hn with rfl | hmem
      · exact h n (List.mem_cons_self n l)
      · exact ih (fun q hq => h q (List.mem_cons_of_mem a hq)) n hmem

/-- The spring phase never changes any node's position. -/
theorem springLink_geom (ns : List PhysNode) (l : Link) :
    ∀ m : ℕ, (springLink ns l)[m]?.map geomProj = ns[m]?.map geomProj := by
  unfold springLink
  cases hs : ns.find? (fun n => n.id == l.source) with
  | none => intro m; rfl
  | some s =>
    cases ht : ns.find? (fun n => n.id == l.target) with
    | none => intro m; rfl
    | some t =>
      simp only
      intro m
      rw [updFirst_geom (fun n => n.id == l.target)
          (fun n => { n with vx := osub n.vx (springDelta s t).1,
                             vy := osub n.vy (springDelta s t).2 })
          (fun n => rfl) _ m,
        updFirst_geom (fun n => n.id == l.source)
          (fun n => { n with vx := oadd n.vx (springDelta s t).1,
                             vy := oadd n.vy (springDelta s t).2 })
          (fun n => rfl) ns m]

/-- The spring phase keeps every node finite. -/
theorem springLink_allFinite (ns : List PhysNode) (l : Link)
    (h : AllFinite ns) : AllFinite (springLink ns l) := by
  unfold springLink
  cases hs : ns.find? (fun n => n.id == l.source) with
  | none => exact h
  | some s =>
    cases ht : ns.find? (fun n => n.id == l.target) with
    | none => exact h
    | some t =>
      simp only
      obtain ⟨hsx, hsy, _, _⟩ := h s (List.mem_of_find?_eq_some hs)
      obtain ⟨htx, hty, _, _⟩ := h t (List.mem_of_find?_eq_some ht)
      obtain ⟨psx, hsx'⟩ := Option.isSome_iff_exists.mp hsx
      obtain ⟨psy, hsy'⟩ := Option.isSome_iff_exists.mp hsy
      obtain ⟨ptx, htx'⟩ := Option.isSome_iff_exists.mp htx
      obtain ⟨pty, hty'⟩ := Option.isSome_iff_exists.mp hty
      obtain ⟨f, g, hfg⟩ := springDelta_finite s t psx psy ptx pty hsx' hsy' htx' hty'
      apply updFirst_allFinite
      · intro n hn
        obtain ⟨hnx, hny, hnvx, hnvy⟩ := hn
        obtain ⟨v1, hv1⟩ := Option.isSome_iff_exists.mp hnvx
        obtain ⟨v2, hv2⟩ := Option.isSome_iff_exists.mp hnvy
        exact ⟨hnx, hny, by simp [hfg, hv1], by simp [hfg, hv2]⟩
      apply updFirst_allFinite
      · intro n hn
        obtain ⟨hnx, hny, hnvx, hnvy⟩ := hn
        obtain ⟨v1, hv1⟩ := Option.isSome_iff_exists.mp hnvx
        obtain ⟨v2, hv2⟩ := Option.isSome_iff_exists.mp hnvy
        exact ⟨hnx, hny, by simp [hfg, hv1], by simp [hfg, hv2]⟩
      exact h

/-- Positions are unchanged by the repulsion and spring phases of one
integration step. -/
theorem phasesGeom (ns : List PhysNode) (links : List Link) :
    ∀ m : ℕ, (links.foldl springLink (repulsionPhase ns))[m]?.map geomProj
      = ns[m]?.map geomProj := by
  have hrep : ∀ m : ℕ, (repulsionPhase ns)[m]?.map geomProj = ns[m]?.map geomProj := by
    unfold repulsionPhase
    refine foldl_preserve
      (fun s => ∀ m : ℕ, s[m]?.map geomProj = ns[m]?.map geomProj)
      _ ?_ _ _ (fun m => rfl)
    intro s i hP
    refine foldl_preserve
      (fun s => ∀ m : ℕ, s[m]?.map geomProj = ns[m]?.map geomProj)
      _ ?_ _ _ hP
    intro s2 j hP2 m
    rw [repelPair_geom s2 i j m]
    exact hP2 m
  refine foldl_preserve
    (fun s => ∀ m : ℕ, s[m]?.map geomProj = ns[m]?.map geomProj)
    springLink ?_ links _ hrep
  intro s l hP m
  rw [springLink_geom s l m]
  exact hP m

/-- All nodes stay finite through the repulsion and spring phases. -/
theorem phasesAllFinite (ns : List PhysNode) (links : List Link)
    (h : AllFinite ns) :
    AllFinite (links.foldl springLink (repulsionPhase ns)) := by
  have hrep : AllFinite (repulsionPhase ns) := by
    unfold repulsionPhase
    refine foldl_preserve AllFinite _ ?_ _ _ h
    intro s i hs
    refine foldl_preserve AllFinite _ ?_ _ _ hs
    intro s2 j hs2
    exact repelPair_allFinite s2 i j hs2
  exact foldl_preserve AllFinite springLink
    (fun s l hs => springLink_allFinite s l hs) links _ hrep

/-- Away from the obstacle center, phase 3+4 keeps a finite node
finite: the only unguarded division is by `distPlanet`, which is
positive when the node is not exactly at the center. -/
theorem gravityPlanetStep_finite (w h : ℝ) (planet : PlanetConfig) (n : PhysNode)
    (px py vx0 vy0 : ℝ) (hx : n.x = some px) (hy : n.y = some py)
    (hvx : n.vx = some vx0) (hvy : n.vy = some vy0)
    (hne : ¬ (px = planet.x ∧ py = planet.y)) :
    FiniteN (gravityPlanetStep w h planet n) := by
  have hS : 0 < (px - planet.x) * (px - planet.x) + (py - planet.y) * (py - planet.y) := by
    rcases lt_or_eq_of_le
      (sumsq_nonneg (px - planet.x) (py - planet.y)) with hlt | heq
    · exact hlt
    · exfalso
      apply hne
      constructor <;>
        nlinarith [mul_self_nonneg (px - planet.x), mul_self_nonneg (py - planet.y)]
  have hsqrt_ne :
      Real.sqrt ((px - planet.x) * (px - planet.x) + (py - planet.y) * (py - planet.y)) ≠ 0 :=
    ne_of_gt (Real.sqrt_pos.mpr hS)
  unfold gravityPlanetStep
  rw [hx, hy, hvx, hvy]
  simp only [osub_some_some, omul_some_some, oadd_some_some, osqrt_some,
    if_neg (not_lt.mpr (le_of_lt (lt_of_lt_of_le hS (le_refl _))))]
  by_cases hin :
      oltP (some (Real.sqrt ((px - planet.x) * (px - planet.x) +
        (py - planet.y) * (py - planet.y)))) (some (planet.radius + 20))
  · rw [if_pos hin, if_pos hin]
    simp only [odiv_some_some, if_neg hsqrt_ne, osub_some_some, omul_some_some,
      oadd_some_some]
    exact ⟨rfl, rfl, rfl, rfl⟩
  · rw [if_neg hin, if_neg hin]
    simp only [omul_some_some, oadd_some_some]
    exact ⟨rfl, rfl, rfl, rfl⟩

/-- At the obstacle center, `distPlanet = 0` and the pushback computes
`0/0` (JS `NaN`), which then poisons both velocity components and,
through the position update, both position components. -/
theorem gravityPlanetStep_center_nan (w h : ℝ) (planet : PlanetConfig) (n : PhysNode)
    (hx : n.x = some planet.x) (hy : n.y = some planet.y)
    (hrad : 0 < planet.radius + 20) :
    (gravityPlanetStep w h planet n).vx = none ∧
    (gravityPlanetStep w h planet n).vy = none ∧
    (gravityPlanetStep w h planet n).x = none ∧
    (gravityPlanetStep w h planet n).y = none := by
  unfold gravityPlanetStep
  rw [hx, hy]
  simp only [osub_some_some, sub_self, omul_some_some, mul_zero, oadd_some_some,
    add_zero, osqrt_some]
  rw [if_neg (lt_irrefl (0:ℝ)), Real.sqrt_zero]
  rw [if_pos ((oltP_some_some 0 (planet.radius + 20)).mpr hrad),
    if_pos ((oltP_some_some 0 (planet.radius + 20)).mpr hrad)]
  have hdiv : odiv (some (0:ℝ)) (some (0:ℝ)) = none := by
    rw [odiv_some_some, if_pos rfl]
  simp [hdiv]

theorem planet_radius_nonneg (w h : ℝ) (hw : 0 ≤ w) (hh : 0 ≤ h) :
    0 ≤ (getPlanetConfig w h).radius := by
  unfold getPlanetConfig
  dsimp only
  split
  · nlinarith
  · have hmin : 0 ≤ min w h := le_min hw hh
    nlinarith

/-- Through one full integration step, a node whose position is not the
obstacle center keeps finite velocities (given all nodes start
finite). -/
theorem integrationStep_node_finite (w h : ℝ) (ns : List PhysNode) (links : List Link)
    (i : ℕ) (n : PhysNode) (hall : AllFinite ns) (hn : ns[i]? = some n)
    (px py : ℝ) (hx : n.x = some px) (hy : n.y = some py)
    (hne : ¬ (px = (getPlanetConfig w h).x ∧ py = (getPlanetConfig w h).y)) :
    ∃ m, (integrationStep w h ns links)[i]? = some m ∧ m.vx.isSome ∧ m.vy.isSome := by
  have hgeom := phasesGeom ns links i
  rw [hn] at hgeom
  cases hn2 : (links.foldl springLink (repulsionPhase ns))[i]? with
  | none => rw [hn2] at hgeom; exact absurd hgeom (by simp)
  | some n2 =>
    rw [hn2] at hgeom
    simp only [Option.map_some'] at hgeom
    have hg : geomProj n2 = geomProj n := Option.some.inj hgeom
    have hx2 : n2.x = some px := by
      have := congrArg Prod.fst hg
      simpa [geomProj, hx] using this
    have hy2 : n2.y = some py := by
      have := congrArg Prod.snd hg
      simpa [geomProj, hy] using this
    have hall2 := phasesAllFinite ns links hall
    have hn2mem : n2 ∈ links.foldl springLink (repulsionPhase ns) := by
      rcases List.getElem?_eq_some_iff.mp hn2 with ⟨hlen, hget⟩
      exact hget ▸ List.getElem_mem hlen
    obtain ⟨_, _, hvx2, hvy2⟩ := hall2 n2 hn2mem
    obtain ⟨v1, hv1⟩ := Option.isSome_iff_exists.mp hvx2
    obtain ⟨v2, hv2⟩ := Option.isSome_iff_exists.mp hvy2
    have hfin := gravityPlanetStep_finite w h (getPlanetConfig w h) n2 px py v1 v2
      hx2 hy2 hv1 hv2 hne
    refine ⟨gravityPlanetStep w h (getPlanetConfig w h) n2, ?_, hfin.2.2.1, hfin.2.2.2⟩
    unfold integrationStep
    rw [List.getElem?_map, hn2, Option.map_some']

/-- Concrete obstacle geometry for a 1000×1000 desktop viewport. -/
theorem getPlanetConfig_1000 : getPlanetConfig 1000 1000 = ⟨-100, 1100, 800⟩ := by
  unfold getPlanetConfig
  rw [if_neg (by norm_num : ¬ (1000:ℝ) < 768), if_neg (by norm_num : ¬ (1000:ℝ) < 768),
    if_neg (by norm_num : ¬ (1000:ℝ) < 768)]
  simp only [PlanetConfig.mk.injEq]
  norm_num

/-- Any node sitting exactly at the obstacle center leaves one full
integration step with non-finite velocity and position components. -/
theorem integrationStep_center_nan (w h : ℝ) (ns : List PhysNode) (links : List Link)
    (i : ℕ) (n : PhysNode) (hn : ns[i]? = some n)
    (hx : n.x = some (getPlanetConfig w h).x) (hy : n.y = some (getPlanetConfig w h).y)
    (hrad : 0 < (getPlanetConfig w h).radius + 20) :
    ∃ m, (integrationStep w h ns links)[i]? = some m ∧
      m.vx = none ∧ m.vy = none ∧ m.x = none ∧ m.y = none := by
  have hgeom := phasesGeom ns links i
  rw [hn] at hgeom
  cases hn2 : (links.foldl springLink (repulsionPhase ns))[i]? with
  | none => rw [hn2] at hgeom; exact absurd hgeom (by simp)
  | some n2 =>
    rw [hn2] at hgeom
    simp only [Option.map_some'] at hgeom
    have hg : geomProj n2 = geomProj n := Option.some.inj hgeom
    have hx2 : n2.x = some (getPlanetConfig w h).x := by
      have := congrArg Prod.fst hg
      simpa [geomProj, hx] using this
    have hy2 : n2.y = some (getPlanetConfig w h).y := by
      have := congrArg Prod.snd hg
      simpa [geomProj, hy] using this
    have hnan := gravityPlanetStep_center_nan w h (getPlanetConfig w h) n2 hx2 hy2 hrad
    refine ⟨_, ?_, hnan.1, hnan.2.1, hnan.2.2.1, hnan.2.2.2⟩
    unfold integrationStep
    rw [List.getElem?_map, hn2, Option.map_some']

/-- C10: the obstacle-avoidance phase has no floor on the distance to
the obstacle center, so a node positioned exactly at the center gets
`NaN` (non-finite) velocity and position components from one step. -/
theorem planet_center_divide_by_zero (w h : ℝ) (ns : List PhysNode) (links : List Link)
    (i : ℕ) (n : PhysNode) (hn : ns[i]? = some n)
    (hx : n.x = some (getPlanetConfig w h).x) (hy : n.y = some (getPlanetConfig w h).y)
    (hw : 0 ≤ w) (hh : 0 ≤ h) :
    ∃ m, (integrationStep w h ns links)[i]? = some m ∧
      m.vx = none ∧ m.vy = none ∧ m.x = none ∧ m.y = none :=
  integrationStep_center_nan w h ns links i n hn hx hy
    (by have := planet_radius_nonneg w h hw hh; linarith)

theorem planet_center_divide_by_zero_witness :
    ∃ m, (integrationStep 1000 1000
        [⟨"a", "agent", some (-100), some 1100, some 0, some 0⟩] [])[0]? = some m ∧
      m.vx = none ∧ m.vy = none ∧ m.x = none ∧ m.y = none :=
  planet_center_divide_by_zero 1000 1000
    [⟨"a", "agent", some (-100), some 1100, some 0, some 0⟩] [] 0
    ⟨"a", "agent", some (-100), some 1100, some 0, some 0⟩ rfl
    (by rw [getPlanetConfig_1000]) (by rw [getPlanetConfig_1000])
    (by norm_num) (by norm_num)

/-- C3 counterexample: two held nodes at identical coordinates equal to
the obstacle center (viewport 1000×1000, center `(-100, 1100)`) end one
integration step with non-finite (`NaN`) velocities, contradicting the
unconditional finiteness claim. -/
theorem coincident_at_center_nan_counterexample :
    Option.map PhysNode.vx
        ((integrationStep 1000 1000
          [⟨"a", "agent", some (-100), some 1100, some 0, some 0⟩,
           ⟨"b", "form", some (-100), some 1100, some 0, some 0⟩] [])[0]?) = some none ∧
    Option.map PhysNode.vy
        ((integrationStep 1000 1000
          [⟨"a", "agent", some (-100), some 1100, some 0, some 0⟩,
           ⟨"b", "form", some (-100), some 1100, some 0, some 0⟩] [])[0]?) = some none := by
  obtain ⟨m, hm, h1, h2, _, _⟩ := integrationStep_center_nan 1000 1000
    [⟨"a", "agent", some (-100), some 1100, some 0, some 0⟩,
     ⟨"b", "form", some (-100), some 1100, some 0, some 0⟩] [] 0
    ⟨"a", "agent", some (-100), some 1100, some 0, some 0⟩ rfl
    (by rw [getPlanetConfig_1000]) (by rw [getPlanetConfig_1000])
    (by rw [getPlanetConfig_1000]; norm_num)
  rw [hm, Option.map_some', Option.map_some', h1, h2]
  exact ⟨rfl, rfl⟩

/-- C3 amended: two held nodes at identical coordinates have finite
(non-NaN, non-infinite) velocities after one full integration step,
provided all held nodes start finite and the common position is not
exactly the obstacle center (at the center the unguarded division of
the pushback produces NaN). -/
theorem coincident_nodes_finite_after_step (w h : ℝ) (ns : List PhysNode)
    (links : List Link) (i j : ℕ) (a b : PhysNode) (hall : AllFinite ns)
    (ha : ns[i]? = some a) (hb : ns[j]? = some b)
    (px py : ℝ) (hax : a.x = some px) (hay : a.y = some py)
    (hbx : b.x = some px) (hby : b.y = some py)
    (hne : ¬ (px = (getPlanetConfig w h).x ∧ py = (getPlanetConfig w h).y)) :
    (∃ m, (integrationStep w h ns links)[i]? = some m ∧ m.vx.isSome ∧ m.vy.isSome) ∧
    (∃ m, (integrationStep w h ns links)[j]? = some m ∧ m.vx.isSome ∧ m.vy.isSome) :=
  ⟨integrationStep_node_finite w h ns links i a hall ha px py hax hay hne,
   integrationStep_node_finite w h ns links j b hall hb px py hbx hby hne⟩

theorem coincident_nodes_finite_after_step_witness :
    (∃ m, (integrationStep 1000 1000
        [⟨"a", "agent", some 100, some 200, some 0, some 0⟩,
         ⟨"b", "form", some 100, some 200, some 0, some 0⟩] [])[0]? = some m ∧
      m.vx.isSome ∧ m.vy.isSome) ∧
    (∃ m, (integrationStep 1000 1000
        [⟨"a", "agent", some 100, some 200, some 0, some 0⟩,
         ⟨"b", "form", some 100, some 200, some 0, some 0⟩] [])[1]? = some m ∧
      m.vx.isSome ∧ m.vy.isSome) :=
  coincident_nodes_finite_after_step 1000 1000
    [⟨"a", "agent", some 100, some 200, some 0, some 0⟩,
     ⟨"b", "form", some 100, some 200, some 0, some 0⟩] [] 0 1
    ⟨"a", "agent", some 100, some 200, some 0, some 0⟩
    ⟨"b", "form", some 100, some 200, some 0, some 0⟩
    (by intro n hn
        rcases List.mem_cons.mp hn with rfl | hn2
        · exact ⟨rfl, rfl, rfl, rfl⟩
        rcases List.mem_cons.mp hn2 with rfl | hn3
        · exact ⟨rfl, rfl, rfl, rfl⟩
        · cases hn3)
    rfl rfl 100 200 rfl rfl rfl rfl
    (by rw [getPlanetConfig_1000]; rintro ⟨h1, h2⟩; norm_num at h1)

/-- C9 counterexample: for a 1000×1000 viewport, the `Math.random` draw
`(0, 0.9)` spawns a new node at `(0, 450)`, whose distance to the
obstacle center `(-100, 1100)` is `sqrt 432500 < 800 = radius`, so a
fresh spawn is not guaranteed to lie outside the obstacle disc. -/
theorem spawn_inside_obstacle_counterexample :
    (reconcile [] ⟨[⟨"n1", "agent"⟩], []⟩ 1000 1000 (fun _ => (0, 0.9)))[0]? =
      some ⟨"n1", "agent", some 0, some 450, some 0, some 0⟩ ∧
    ¬ (distR 0 450 (getPlanetConfig 1000 1000).x (getPlanetConfig 1000 1000).y ≥
        (getPlanetConfig 1000 1000).radius) := by
  constructor
  · unfold reconcile reconcileNode
    simp only [List.getElem?_mapIdx, List.getElem?_cons_zero, Option.map_some',
      List.find?_nil]
    norm_num
  · rw [getPlanetConfig_1000]
    simp only [not_le]
    unfold distR
    rw [show ((0:ℝ) - (PlanetConfig.mk (-100) 1100 800).x) ^ 2 +
        ((450:ℝ) - (PlanetConfig.mk (-100) 1100 800).y) ^ 2 = 432500 by norm_num]
    rw [Real.sqrt_lt' (by norm_num : (0:ℝ) < 800)]
    norm_num

/-- C9 amended: a node introduced by reconciliation spawns in the upper
half of the viewport, strictly above the obstacle center's
y-coordinate; its distance from the obstacle center is however not
guaranteed to be at least the obstacle radius. -/
theorem new_node_above_planet_center (held : List PhysNode) (snap : GraphSnapshot)
    (w h : ℝ) (r : ℕ → ℝ × ℝ) (i : ℕ) (n : GraphNode)
    (hh : 0 < h) (hr2 : (r i).2 < 1)
    (hn : snap.nodes[i]? = some n)
    (he : held.find? (fun old => old.id == n.id) = none) :
    (reconcile held snap w h r)[i]? =
      some { id := n.id, type := n.type, x := some ((r i).1 * w),
             y := some ((r i).2 * h * 0.5), vx := some 0, vy := some 0 } ∧
    (r i).2 * h * 0.5 < (getPlanetConfig w h).y := by
  constructor
  · unfold reconcile
    rw [List.getElem?_mapIdx, hn]
    simp only [Option.map_some']
    unfold reconcileNode
    rw [he]
  · unfold getPlanetConfig
    dsimp only
    split
    · nlinarith
    · nlinarith

theorem new_node_above_planet_center_witness :
    (reconcile [] ⟨[⟨"f1", "form"⟩], []⟩ 1000 1000 (fun _ => (0, 0.9)))[0]? =
      some { id := "f1", type := "form", x := some ((0:ℝ) * 1000),
             y := some ((0.9:ℝ) * 1000 * 0.5), vx := some 0, vy := some 0 } ∧
    (0.9:ℝ) * 1000 * 0.5 < (getPlanetConfig 1000 1000).y :=
  new_node_above_planet_center [] ⟨[⟨"f1", "form"⟩], []⟩ 1000 1000
    (fun _ => (0, 0.9)) 0 ⟨"f1", "form"⟩ (by norm_num) (by norm_num) rfl rfl

/-- Evaluation of phase 3+4 for a finite node clear of the obstacle
(distance from the center at least `radius + buffer`): no pushback is
applied, leaving only gravity bias, damping and the position update. -/
theorem gravityPlanetStep_clear_eval (w h : ℝ) (planet : PlanetConfig)
    (nid nty : String) (px py vx0 vy0 : ℝ)
    (hrad : 0 ≤ planet.radius + 20)
    (hc : (planet.radius + 20) ^ 2 ≤ (px - planet.x) ^ 2 + (py - planet.y) ^ 2) :
    gravityPlanetStep w h planet ⟨nid, nty, some px, some py, some vx0, some vy0⟩ =
      ⟨nid, nty,
        some (px + (vx0 + (w * 0.7 - px) * 0.0003) * 0.85),
        some (py + (vy0 + (h * 0.3 - py) * 0.0003) * 0.85),
        some ((vx0 + (w * 0.7 - px) * 0.0003) * 0.85),
        some ((vy0 + (h * 0.3 - py) * 0.0003) * 0.85)⟩ := by
  have hge : planet.radius + 20 ≤
      Real.sqrt ((px - planet.x) * (px - planet.x) + (py - planet.y) * (py - planet.y)) := by
    rw [Real.le_sqrt hrad (sumsq_nonneg _ _)]
    calc (planet.radius + 20) ^ 2 ≤ (px - planet.x) ^ 2 + (py - planet.y) ^ 2 := hc
      _ = (px - planet.x) * (px - planet.x) + (py - planet.y) * (py - planet.y) := by ring
  have hno : ¬ oltP (some (Real.sqrt ((px - planet.x) * (px - planet.x) +
      (py - planet.y) * (py - planet.y)))) (some (planet.radius + 20)) :=
    fun hlt => absurd ((oltP_some_some _ _).mp hlt) (not_lt.mpr hge)
  unfold gravityPlanetStep
  simp only [osub_some_some, omul_some_some, oadd_some_some, osqrt_some]
  rw [if_neg (not_lt.mpr (sumsq_nonneg _ _))]
  rw [if_neg hno, if_neg hno]
  simp only [omul_some_some, oadd_some_some]

theorem updFirst_cons_pos (p : PhysNode → Bool) (f : PhysNode → PhysNode)
    (a : PhysNode) (l : List PhysNode) (h : p a = true) :
    updFirst p f (a :: l) = f a :: l := by
  show (if p a = true then f a :: l else a :: updFirst p f l) = f a :: l
  rw [if_pos h]

theorem updFirst_cons_neg (p : PhysNode → Bool) (f : PhysNode → PhysNode)
    (a : PhysNode) (l : List PhysNode) (h : p a = false) :
    updFirst p f (a :: l) = a :: updFirst p f l := by
  show (if p a = true then f a :: l else a :: updFirst p f l) = a :: updFirst p f l
  rw [if_neg (by rw [h]; exact Bool.false_ne_true)]

/-- Symbolic evaluation of one full integration step for the §8
scenario: nodes `a1` and `f1` on a horizontal line at distance `d`,
joined by one link, both at rest and clear of the obstacle. -/
theorem twoNodeStep_eval (p q d w h : ℝ) (hd : 0 < d)
    (hrad : 0 ≤ (getPlanetConfig w h).radius + 20)
    (hc0 : ((getPlanetConfig w h).radius + 20) ^ 2 ≤
      (p - (getPlanetConfig w h).x) ^ 2 + (q - (getPlanetConfig w h).y) ^ 2)
    (hc1 : ((getPlanetConfig w h).radius + 20) ^ 2 ≤
      (p + d - (getPlanetConfig w h).x) ^ 2 + (q - (getPlanetConfig w h).y) ^ 2) :
    integrationStep w h
      [⟨"a1", "agent", some p, some q, some 0, some 0⟩,
       ⟨"f1", "form", some (p + d), some q, some 0, some 0⟩]
      [⟨"a1", "f1"⟩] =
    [⟨"a1", "agent",
        some (p + (-(2000 / d ^ 2) + (d - 120) * 0.02 + (w * 0.7 - p) * 0.0003) * 0.85),
        some (q + (h * 0.3 - q) * 0.0003 * 0.85),
        some ((-(2000 / d ^ 2) + (d - 120) * 0.02 + (w * 0.7 - p) * 0.0003) * 0.85),
        some ((h * 0.3 - q) * 0.0003 * 0.85)⟩,
     ⟨"f1", "form",
        some (p + d + (2000 / d ^ 2 - (d - 120) * 0.02 + (w * 0.7 - (p + d)) * 0.0003) * 0.85),
        some (q + (h * 0.3 - q) * 0.0003 * 0.85),
        some ((2000 / d ^ 2 - (d - 120) * 0.02 + (w * 0.7 - (p + d)) * 0.0003) * 0.85),
        some ((h * 0.3 - q) * 0.0003 * 0.85)⟩] := by
  have hdne : d ≠ 0 := ne_of_gt hd
  have hsum : (p - (p + d)) * (p - (p + d)) + (q - q) * (q - q) = d ^ 2 := by ring
  have hsne : (p - (p + d)) * (p - (p + d)) + (q - q) * (q - q) ≠ 0 := by
    rw [hsum]
    positivity
  have hdelta : repelDelta ⟨"a1", "agent", some p, some q, some 0, some 0⟩
      ⟨"f1", "form", some (p + d), some q, some 0, some 0⟩ =
      (some (-(2000 / d ^ 2)), some 0) := by
    rw [repelDelta_eq_of_ne_zero _ _ p q (p + d) q rfl rfl rfl rfl hsne]
    rw [hsum, Real.sqrt_sq (le_of_lt hd)]
    rw [Prod.mk.injEq]
    constructor
    · rw [Option.some.injEq]
      field_simp
    · rw [Option.some.injEq]
      rw [show q - q = (0:ℝ) by ring, zero_div, zero_mul]
  have hphase1 : repulsionPhase
      [⟨"a1", "agent", some p, some q, some 0, some 0⟩,
       ⟨"f1", "form", some (p + d), some q, some 0, some 0⟩] =
      [⟨"a1", "agent", some p, some q, some (-(2000 / d ^ 2)), some 0⟩,
       ⟨"f1", "form", some (p + d), some q, some (2000 / d ^ 2), some 0⟩] := by
    unfold repulsionPhase
    rw [show ([⟨"a1", "agent", some p, some q, some 0, some 0⟩,
      ⟨"f1", "form", some (p + d), some q, some 0, some 0⟩] : List PhysNode).length = 2
      from rfl]
    rw [show List.range 2 = [0, 1] from rfl]
    simp only [List.foldl_cons, List.foldl_nil, List.drop_succ_cons, List.drop_zero,
      List.drop_nil]
    rw [repelPair_eq _ 0 1 ⟨"a1", "agent", some p, some q, some 0, some 0⟩
      ⟨"f1", "form", some (p + d), some q, some 0, some 0⟩ (by norm_num) rfl rfl, hdelta]
    simp only [List.set_cons_zero, List.set_cons_succ]
    simp only [List.cons.injEq, PhysNode.mk.injEq, Option.some.injEq, oadd_some_some,
      osub_some_some, true_and, and_true]
    norm_num
  have hsd : springDelta ⟨"a1", "agent", some p, some q, some (-(2000 / d ^ 2)), some 0⟩
      ⟨"f1", "form", some (p + d), some q, some (2000 / d ^ 2), some 0⟩ =
      (some ((d - 120) * 0.02), some 0) := by
    unfold springDelta
    simp only [osub_some_some, omul_some_some, oadd_some_some, osqrt_some]
    rw [show (p + d - p) * (p + d - p) + (q - q) * (q - q) = d ^ 2 by ring]
    rw [if_neg (not_lt.mpr (by positivity : (0:ℝ) ≤ d ^ 2))]
    rw [Real.sqrt_sq (le_of_lt hd)]
    rw [jsOr1_some, if_neg hdne]
    simp only [osub_some_some, omul_some_some, odiv_some_some, if_neg hdne]
    rw [Prod.mk.injEq]
    constructor
    · rw [Option.some.injEq]
      field_simp
    · rw [Option.some.injEq]
      rw [show q - q = (0:ℝ) by ring, zero_div, zero_mul]
  have hphase2 : List.foldl springLink
      [⟨"a1", "agent", some p, some q, some (-(2000 / d ^ 2)), some 0⟩,
       ⟨"f1", "form", some (p + d), some q, some (2000 / d ^ 2), some 0⟩]
      [⟨"a1", "f1"⟩] =
      [⟨"a1", "agent", some p, some q, some (-(2000 / d ^ 2) + (d - 120) * 0.02), some 0⟩,
       ⟨"f1", "form", some (p + d), some q,
          some (2000 / d ^ 2 - (d - 120) * 0.02), some 0⟩] := by
    simp only [List.foldl_cons, List.foldl_nil]
    unfold springLink
    have hfs : List.find? (fun n : PhysNode => n.id == (⟨"a1", "f1"⟩ : Link).source)
        [⟨"a1", "agent", some p, some q, some (-(2000 / d ^ 2)), some 0⟩,
         ⟨"f1", "form", some (p + d), some q, some (2000 / d ^ 2), some 0⟩] =
        some ⟨"a1", "agent", some p, some q, some (-(2000 / d ^ 2)), some 0⟩ := rfl
    have hft : List.find? (fun n : PhysNode => n.id == (⟨"a1", "f1"⟩ : Link).target)
        [⟨"a1", "agent", some p, some q, some (-(2000 / d ^ 2)), some 0⟩,
         ⟨"f1", "form", some (p + d), some q, some (2000 / d ^ 2), some 0⟩] =
        some ⟨"f1", "form", some (p + d), some q, some (2000 / d ^ 2), some 0⟩ := rfl
    rw [hfs, hft]
    simp only
    rw [hsd]
    rw [updFirst_cons_pos _ _ _ _ rfl]
    rw [updFirst_cons_neg _ _ _ _ rfl]
    rw [updFirst_cons_pos _ _ _ _ rfl]
    simp only [oadd_some_some, osub_some_some]
    simp only [List.cons.injEq, PhysNode.mk.injEq, Option.some.injEq, true_and, and_true]
    norm_num
  unfold integrationStep
  rw [hphase1, hphase2]
  simp only [List.map_cons, List.map_nil]
  rw [gravityPlanetStep_clear_eval w h (getPlanetConfig w h) "a1" "agent" p q
      (-(2000 / d ^ 2) + (d - 120) * 0.02) 0 hrad hc0,
    gravityPlanetStep_clear_eval w h (getPlanetConfig w h) "f1" "form" (p + d) q
      (2000 / d ^ 2 - (d - 120) * 0.02) 0 hrad hc1]
  simp only [List.cons.injEq, PhysNode.mk.injEq, Option.some.injEq, true_and, and_true]
  and_intros <;> first | rfl | ring

/-- C8 counterexample: in the §8 scenario with `a1` at `(650, 100)` and
`f1` at `(771, 100)` (distance 121 > 120, both clear of the obstacle,
viewport 1000×1000), one integration step moves the nodes strictly
apart: the repulsion `2000/121² ≈ 0.137` dominates the spring pull
`(121-120)·0.02 = 0.02`. -/
theorem spring_scenario_counterexample :
    120 < distR 650 100 (650 + 121) 100 ∧
    integrationStep 1000 1000
      [⟨"a1", "agent", some 650, some 100, some 0, some 0⟩,
       ⟨"f1", "form", some (650 + 121), some 100, some 0, some 0⟩]
      [⟨"a1", "f1"⟩] =
    [⟨"a1", "agent",
        some (650 + (-(2000 / 121 ^ 2) + (121 - 120) * 0.02 +
          (1000 * 0.7 - 650) * 0.0003) * 0.85),
        some (100 + (1000 * 0.3 - 100) * 0.0003 * 0.85),
        some ((-(2000 / 121 ^ 2) + (121 - 120) * 0.02 +
          (1000 * 0.7 - 650) * 0.0003) * 0.85),
        some ((1000 * 0.3 - 100) * 0.0003 * 0.85)⟩,
     ⟨"f1", "form",
        some (650 + 121 + (2000 / 121 ^ 2 - (121 - 120) * 0.02 +
          (1000 * 0.7 - (650 + 121)) * 0.0003) * 0.85),
        some (100 + (1000 * 0.3 - 100) * 0.0003 * 0.85),
        some ((2000 / 121 ^ 2 - (121 - 120) * 0.02 +
          (1000 * 0.7 - (650 + 121)) * 0.0003) * 0.85),
        some ((1000 * 0.3 - 100) * 0.0003 * 0.85)⟩] ∧
    distR 650 100 (650 + 121) 100 <
      distR (650 + (-(2000 / 121 ^ 2) + (121 - 120) * 0.02 +
          (1000 * 0.7 - 650) * 0.0003) * 0.85)
        (100 + (1000 * 0.3 - 100) * 0.0003 * 0.85)
        (650 + 121 + (2000 / 121 ^ 2 - (121 - 120) * 0.02 +
          (1000 * 0.7 - (650 + 121)) * 0.0003) * 0.85)
        (100 + (1000 * 0.3 - 100) * 0.0003 * 0.85) := by
  have hold : distR 650 100 (650 + 121) 100 = 121 := by
    unfold distR
    rw [show ((650:ℝ) - (650 + 121)) ^ 2 + ((100:ℝ) - 100) ^ 2 = 121 ^ 2 by norm_num]
    rw [Real.sqrt_sq (by norm_num)]
  refine ⟨by rw [hold]; norm_num, ?_, ?_⟩
  · exact twoNodeStep_eval 650 100 121 1000 1000 (by norm_num)
      (by rw [getPlanetConfig_1000]; norm_num)
      (by rw [getPlanetConfig_1000]; norm_num)
      (by rw [getPlanetConfig_1000]; norm_num)
  · rw [hold]
    unfold distR
    rw [Real.lt_sqrt (by norm_num)]
    norm_num

/-- C8 amended: in the §8 two-node scenario (nodes `a1`, `f1` on a
horizontal line at distance `d`, at rest, both clear of the obstacle),
one integration step strictly decreases their distance whenever
`d > 120` AND the spring-plus-gravity contraction dominates the
pairwise repulsion, `4000/d² < 0.04·(d-120) + 0.0003·d`; for `d`
slightly above 120 the repulsion dominates and the distance instead
grows. -/
theorem spring_scenario_moves_closer (p q d w h : ℝ) (hd : 120 < d)
    (hnet : 4000 / d ^ 2 < 0.04 * (d - 120) + 0.0003 * d)
    (hrad : 0 ≤ (getPlanetConfig w h).radius + 20)
    (hc0 : ((getPlanetConfig w h).radius + 20) ^ 2 ≤
      (p - (getPlanetConfig w h).x) ^ 2 + (q - (getPlanetConfig w h).y) ^ 2)
    (hc1 : ((getPlanetConfig w h).radius + 20) ^ 2 ≤
      (p + d - (getPlanetConfig w h).x) ^ 2 + (q - (getPlanetConfig w h).y) ^ 2) :
    ∃ va vb vc : ℝ,
      integrationStep w h
        [⟨"a1", "agent", some p, some q, some 0, some 0⟩,
         ⟨"f1", "form", some (p + d), some q, some 0, some 0⟩]
        [⟨"a1", "f1"⟩] =
        [⟨"a1", "agent", some (p + va), some (q + vc), some va, some vc⟩,
         ⟨"f1", "form", some (p + d + vb), some (q + vc), some vb, some vc⟩] ∧
      distR (p + va) (q + vc) (p + d + vb) (q + vc) < distR p q (p + d) q := by
  have hd0 : (0:ℝ) < d := by linarith
  refine ⟨(-(2000 / d ^ 2) + (d - 120) * 0.02 + (w * 0.7 - p) * 0.0003) * 0.85,
    (2000 / d ^ 2 - (d - 120) * 0.02 + (w * 0.7 - (p + d)) * 0.0003) * 0.85,
    (h * 0.3 - q) * 0.0003 * 0.85,
    twoNodeStep_eval p q d w h hd0 hrad hc0 hc1, ?_⟩
  have hold : distR p q (p + d) q = d := by
    unfold distR
    rw [show (p - (p + d)) ^ 2 + (q - q) ^ 2 = d ^ 2 by ring]
    exact Real.sqrt_sq (le_of_lt hd0)
  have h4 : (0:ℝ) < 4000 / d ^ 2 := by positivity
  have hpos : (0:ℝ) < d + 0.85 * (4000 / d ^ 2 - 0.04 * (d - 120) - 0.0003 * d) := by
    nlinarith
  rw [hold]
  unfold distR
  rw [show (p + (-(2000 / d ^ 2) + (d - 120) * 0.02 + (w * 0.7 - p) * 0.0003) * 0.85 -
      (p + d + (2000 / d ^ 2 - (d - 120) * 0.02 + (w * 0.7 - (p + d)) * 0.0003) * 0.85)) ^ 2 +
      (q + (h * 0.3 - q) * 0.0003 * 0.85 - (q + (h * 0.3 - q) * 0.0003 * 0.85)) ^ 2 =
      (d + 0.85 * (4000 / d ^ 2 - 0.04 * (d - 120) - 0.0003 * d)) ^ 2 by ring]
  rw [Real.sqrt_sq (le_of_lt hpos)]
  nlinarith

theorem spring_scenario_moves_closer_witness :
    ∃ va vb vc : ℝ,
      integrationStep 1000 1000
        [⟨"a1", "agent", some 650, some 100, some 0, some 0⟩,
         ⟨"f1", "form", some (650 + 200), some 100, some 0, some 0⟩]
        [⟨"a1", "f1"⟩] =
        [⟨"a1", "agent", some (650 + va), some (100 + vc), some va, some vc⟩,
         ⟨"f1", "form", some (650 + 200 + vb), some (100 + vc), some vb, some vc⟩] ∧
      distR (650 + va) (100 + vc) (650 + 200 + vb) (100 + vc) <
        distR 650 100 (650 + 200) 100 :=
  spring_scenario_moves_closer 650 100 200 1000 1000 (by norm_num) (by norm_num)
    (by rw [getPlanetConfig_1000]; norm_num)
    (by rw [getPlanetConfig_1000]; norm_num)
    (by rw [getPlanetConfig_1000]; norm_num)
